import Mathlib

/-
Verification development for the nanoboard process-supervision and
log-streaming core (src-tauri/src/process.rs and src-tauri/src/logger.rs).

The Rust code is shallowly embedded: pure control flow becomes Lean
functions, the OS process table becomes an explicit list of entries, the
wall clock and the monotone clock become natural-number parameters, and
every fallible step of a command handler becomes an explicit input of the
step function.  Machine integers are modelled as Nat or Int with explicit
reduction modulo 2 ^ 64 where the Rust code performs a wrapping cast.
-/

/-! ## String containment, mirroring Rust str::contains used by the
process fingerprint checks -/

/-- Boolean test that the first character list is a prefix of the second,
compared character by character. -/
def prefMatch : List Char → List Char → Bool
  | [], _ => true
  | _ :: _, [] => false
  | a :: as, b :: bs => a == b && prefMatch as bs

/-- Boolean test that the first character list occurs contiguously inside
the second, by scanning every suffix. -/
def subMatch (n : List Char) : List Char → Bool
  | [] => prefMatch n []
  | c :: rest => prefMatch n (c :: rest) || subMatch n rest

/-- Model of Rust hay.contains(needle) on strings. -/
def strContains (hay needle : String) : Bool :=
  subMatch needle.data hay.data

/-! ## Process table and the fingerprint scan
(process.rs, check_nanobot_running_impl, lines 378-394) -/

/-- One entry of the OS process table as seen through sysinfo: the process
name and its command-line argument vector. -/
structure ProcEntry where
  name : String
  cmd : List String
deriving DecidableEq

/-- Model of process.cmd().join(" "). -/
def cmdline (p : ProcEntry) : String :=
  String.intercalate " " p.cmd

/-- Fingerprint used by check_nanobot_running_impl, stop_nanobot,
detect_nanobot_port and get_nanobot_start_time: the process name contains
"python" or "nanobot", and the joined command line contains both "nanobot"
and "gateway". -/
def procMatches (p : ProcEntry) : Bool :=
  (strContains p.name "python" || strContains p.name "nanobot") &&
  (strContains (cmdline p) "nanobot" && strContains (cmdline p) "gateway")

/-- Model of check_nanobot_running_impl: a full scan of the process table,
true exactly when some entry matches the fingerprint. -/
def check_nanobot_running_impl (ps : List ProcEntry) : Bool :=
  ps.any procMatches

/-! ## ProcessCheckCache (process.rs lines 17-92)
Instants are modelled as whole seconds on a monotone clock; the guarded
global PROCESS_CACHE : Mutex (Option ProcessCheckCache) is threaded as an
explicit Option value. -/

/-- Model of struct ProcessCheckCache. -/
structure ProcessCheckCache where
  is_running : Option Bool
  last_update : Option ℕ
deriving DecidableEq

/-- Model of ProcessCheckCache::new. -/
def ProcessCheckCache.new : ProcessCheckCache :=
  { is_running := none, last_update := none }

/-- Model of ProcessCheckCache::get.  The current monotone time now and
the process table ps (read by a fresh scan when the cached value is stale
or absent) are explicit inputs.  Returns the boolean answer, the updated
cache, and whether a fresh OS scan was performed.  CACHE_DURATION is 2
seconds; last_update.elapsed() is now - lu. -/
def ProcessCheckCache.get (c : ProcessCheckCache) (now : ℕ)
    (ps : List ProcEntry) : Bool × ProcessCheckCache × Bool :=
  let cachedHit : Option Bool :=
    match c.last_update with
    | some lu => if now - lu < 2 then c.is_running else none
    | none => none
  match cachedHit with
  | some r => (r, c, false)
  | none =>
    let result := check_nanobot_running_impl ps
    (result, { is_running := some result, last_update := some now }, true)

/-- Model of ProcessCheckCache::invalidate: both fields cleared. -/
def ProcessCheckCache.invalidate (_ : ProcessCheckCache) : ProcessCheckCache :=
  { is_running := none, last_update := none }

/-- Model of get_cached_nanobot_status (lines 56-67): if the global cache
cell is empty a fresh ProcessCheckCache::new is installed, then get runs. -/
def get_cached_nanobot_status (oc : Option ProcessCheckCache) (now : ℕ)
    (ps : List ProcEntry) : Bool × Option ProcessCheckCache × Bool :=
  let c := match oc with
    | none => ProcessCheckCache.new
    | some c => c
  let g := c.get now ps
  (g.1, some g.2.1, g.2.2)

/-- Model of invalidate_cache (lines 69-77): an occupied cell is
invalidated, an empty cell stays empty. -/
def invalidate_cache (oc : Option ProcessCheckCache) : Option ProcessCheckCache :=
  oc.map ProcessCheckCache.invalidate

/-! ## ManagedProcess record (process.rs, struct ProcessManager) -/

/-- Model of struct ProcessManager restricted to the fields the claims
touch: the atomic running flag and the recorded port. -/
structure ProcessManager where
  is_running : Bool
  port : ℕ
deriving DecidableEq

/-! ## start_nanobot (process.rs lines 402-575) -/

/-- Structured JSON result of a command handler, restricted to the status
and message fields the claims are about (port, pid, log_path and
exit_code fields of the source JSON are not modelled). -/
structure ResultJson where
  status : String
  message : String
deriving DecidableEq

/-- Effects performed by a start_nanobot call: whether find_command ran,
whether the --help self test ran, whether the log file was opened, and
whether a child process was spawned. -/
structure StartEffects where
  resolvedCmd : Bool
  ranSelfTest : Bool
  openedLog : Bool
  spawned : Bool
deriving DecidableEq

/-- Effects of a start_nanobot call that returned before resolving the
command. -/
def noStartEffects : StartEffects :=
  { resolvedCmd := false, ranSelfTest := false, openedLog := false, spawned := false }

/-- Output of the --help self-test subprocess. -/
structure SelfTestOut where
  success : Bool
  stderr : String
deriving DecidableEq

/-- Outcome of child.try_wait() 1.5 seconds after spawning. -/
inductive TryWaitRes where
  | exited (code : Option ℤ)
  | stillRunning
  | errw (msg : String)
deriving DecidableEq

/-- Environment of one start_nanobot call: the process table ps0 seen by
the pre-spawn scan, the outcome of each OS interaction the handler
performs, the tables ps1 and ps2 and monotone times t1 and t2 of the two
post-spawn liveness checks, and the tail of the log read on early exit. -/
structure StartEnv where
  ps0 : List ProcEntry
  homeOk : Bool
  mkdirErr : Option String
  findCmd : Option String
  selfTest : Except String SelfTestOut
  openLogErr : Option String
  cloneErr : Option String
  spawnErr : Option String
  tryWait : TryWaitRes
  t1 : ℕ
  ps1 : List ProcEntry
  t2 : ℕ
  ps2 : List ProcEntry
  tailMsg : String

/-- Model of start_nanobot.  Inputs: the global cache cell, the monotone
time t0 of the pre-spawn check, the call environment, the optional port
argument (defaulted to 18790), and the current managed-process record.
Output: the command result (Except.error models the question-mark early
returns of the Rust handler), the effects performed, the final cache cell,
and the final managed-process record. -/
def start_nanobot (oc : Option ProcessCheckCache) (t0 : ℕ) (env : StartEnv)
    (portArg : Option ℕ) (mp : Option ProcessManager) :
    Except String ResultJson × StartEffects × Option ProcessCheckCache ×
      Option ProcessManager :=
  let port := portArg.getD 18790
  let g := get_cached_nanobot_status (invalidate_cache oc) t0 env.ps0
  let oc2 := g.2.1
  if g.1 then
    (.ok ⟨"already_running", "Nanobot已经在运行中"⟩, noStartEffects, oc2, mp)
  else if env.homeOk = false then
    (.error "无法找到用户主目录", noStartEffects, oc2, mp)
  else
    match env.mkdirErr with
    | some e => (.error ("创建日志目录失败: " ++ e), noStartEffects, oc2, mp)
    | none =>
      match env.findCmd with
      | none =>
        (.ok ⟨"failed", "未找到 nanobot 命令，请先安装 nanobot-ai"⟩,
         { resolvedCmd := true, ranSelfTest := false, openedLog := false,
           spawned := false }, oc2, mp)
      | some _cmd =>
        let eff1 : StartEffects :=
          { resolvedCmd := true, ranSelfTest := true, openedLog := false,
            spawned := false }
        match env.selfTest with
        | .error e =>
          (.ok ⟨"failed", "无法执行 nanobot 命令: " ++ e⟩, eff1, oc2, mp)
        | .ok out =>
          if out.success = false then
            (.ok ⟨"failed", "nanobot 命令执行失败: " ++ out.stderr⟩, eff1, oc2, mp)
          else
            match env.openLogErr with
            | some e => (.error ("无法打开日志文件: " ++ e), eff1, oc2, mp)
            | none =>
              let eff2 : StartEffects :=
                { resolvedCmd := true, ranSelfTest := true, openedLog := true,
                  spawned := false }
              match env.cloneErr with
              | some e => (.error ("复制文件句柄失败: " ++ e), eff2, oc2, mp)
              | none =>
                match env.spawnErr with
                | some e =>
                  (.ok ⟨"failed", "启动 nanobot 失败: " ++ e⟩, eff2, oc2, mp)
                | none =>
                  let eff3 : StartEffects :=
                    { resolvedCmd := true, ranSelfTest := true,
                      openedLog := true, spawned := true }
                  match env.tryWait with
                  | .exited _ =>
                    (.ok ⟨"failed", "Nanobot启动后立即退出: " ++ env.tailMsg.trim⟩,
                     eff3, oc2, mp)
                  | .errw e =>
                    (.ok ⟨"failed", "检查进程状态失败: " ++ e⟩, eff3, oc2, mp)
                  | .stillRunning =>
                    let g1 := get_cached_nanobot_status oc2 env.t1 env.ps1
                    if g1.1 then
                      (.ok ⟨"started", "Nanobot已在端口 " ++ toString port ++ " 启动"⟩,
                       eff3, g1.2.1, some ⟨true, port⟩)
                    else
                      let g2 := get_cached_nanobot_status g1.2.1 env.t2 env.ps2
                      if g2.1 then
                        (.ok ⟨"started", "Nanobot已在端口 " ++ toString port ++ " 启动"⟩,
                         eff3, g2.2.1, some ⟨true, port⟩)
                      else
                        (.ok ⟨"failed", "Nanobot进程启动但未能正常运行，请检查日志文件"⟩,
                         eff3, g2.2.1, mp)

/-! ## stop_nanobot (process.rs lines 604-651) -/

/-- Model of stop_nanobot.  psCheck is the process table seen by the
(freshly invalidated) status check, psKill the independent snapshot the
kill loop iterates over.  Returns the JSON result, the final
managed-process record, and the final cache cell. -/
def stop_nanobot (oc : Option ProcessCheckCache) (t : ℕ)
    (psCheck psKill : List ProcEntry) (mp : Option ProcessManager) :
    ResultJson × Option ProcessManager × Option ProcessCheckCache :=
  let g := get_cached_nanobot_status (invalidate_cache oc) t psCheck
  let oc2 := g.2.1
  if g.1 = false then
    (⟨"not_running", "Nanobot未运行"⟩, mp, oc2)
  else
    let killed := psKill.any procMatches
    if killed then
      (⟨"stopped", "Nanobot已停止"⟩,
       mp.map (fun m => { m with is_running := false }), oc2)
    else
      (⟨"not_found", "未找到运行中的Nanobot进程"⟩, mp, oc2)

/-! ## Log tailer cursor (logger.rs, read_new_lines lines 105-141)

A read observes the file size, resets the stored position to 0 when the
file shrank below it (rotation or truncation), returns nothing when the
size equals the position, and otherwise reads the byte range from the
position to the end of file and advances the position to the size.  The
lines returned by the source are exactly the bytes of that half-open
range, so the model returns the range itself.  The poll path of
start_log_stream only calls read_new_lines after observing growth, and
the event path calls it on every modify event; both serialize on the
tracker lock, so any interleaving is a sequence of read_new_lines calls
with one observed size each, which stream_trace replays. -/

/-- Model of read_new_lines on a file of the given current size with the
given stored cursor: the emitted byte range, if any, and the new cursor. -/
def read_new_lines (size pos : ℕ) : Option (ℕ × ℕ) × ℕ :=
  let p := if size < pos then 0 else pos
  if size = p then (none, p) else (some (p, size), size)

/-- Replay of a serialized sequence of read_new_lines calls, one observed
file size per call, from a starting cursor: the list of emitted ranges in
order and the final cursor. -/
def stream_trace : List ℕ → ℕ → List (ℕ × ℕ) × ℕ
  | [], pos => ([], pos)
  | s :: rest, pos =>
    match read_new_lines s pos with
    | (none, p) => stream_trace rest p
    | (some rg, p) =>
      let t := stream_trace rest p
      (rg :: t.1, t.2)

/-! ## Log stream lifecycle (logger.rs lines 144-311) -/

/-- Environment of a start_log_stream call: whether the home directory
resolves, the formatted error when creating a missing log file or its
directory fails, whether the file was missing, and the current file size
read as the initial cursor. -/
structure LogStreamEnv where
  pathOk : Bool
  fileMissing : Bool
  createErr : Option String
  fileSize : ℕ

/-- Model of start_log_stream.  Input: the running flag of the
WatcherHandle and the call environment.  Output: the command result, the
final running flag, whether a background task was spawned, and the
initial tracker position when one was installed.  The source sets the
running flag to true before resolving the path, which the error branches
preserve. -/
def start_log_stream (running : Bool) (env : LogStreamEnv) :
    Except String Unit × Bool × Bool × Option ℕ :=
  if running then (.ok (), true, false, none)
  else if env.pathOk = false then (.error "无法找到用户主目录", true, false, none)
  else
    match (if env.fileMissing then env.createErr else none) with
    | some e => (.error e, true, false, none)
    | none => (.ok (), true, true, some env.fileSize)

/-- Model of stop_log_stream: abort and clear the flag when running,
otherwise report an error.  Output: the command result and the final
running flag. -/
def stop_log_stream (running : Bool) : Except String Unit × Bool :=
  if running then (.ok (), false)
  else (.error "没有正在运行的日志监控", false)

/-! ## Mutex acquisition idioms (process.rs)

The cache lock is taken with lock().unwrap_or_else(|e| e.into_inner())
(lines 59-62, 70-73, 81-84): a poisoned result is recovered by taking the
inner value.  Every nanobot_process lock is taken with lock().unwrap()
(lines 526, 548, 637, 664, 693, 699, 705 and the get_status_internal
copies): a poisoned result aborts the caller. -/

/-- Outcome of acquiring a mutex guard. -/
inductive LockOutcome (α : Type) where
  | acquired (v : α)
  | panicked
deriving DecidableEq

/-- Model of std Mutex::lock: the Ok guard when the mutex is not
poisoned, otherwise the PoisonError still carrying the guard. -/
def rustMutexLock {α : Type} (poisoned : Bool) (v : α) : Except α α :=
  if poisoned then .error v else .ok v

/-- Model of unwrap_or_else taking PoisonError::into_inner: both
constructors yield the guard. -/
def lockRecoverPoison {α : Type} : Except α α → LockOutcome α
  | .ok v => .acquired v
  | .error v => .acquired v

/-- Model of Result::unwrap on a lock result: the Err constructor aborts. -/
def lockUnwrapGuard {α : Type} : Except α α → LockOutcome α
  | .ok v => .acquired v
  | .error _ => .panicked

/-- Acquisition of the PROCESS_CACHE lock as performed by
get_cached_nanobot_status, invalidate_cache and
invalidate_cache_if_expired. -/
def acquireCacheLock {α : Type} (poisoned : Bool) (v : α) : LockOutcome α :=
  lockRecoverPoison (rustMutexLock poisoned v)

/-- Acquisition of the state.nanobot_process lock as performed by
start_nanobot, stop_nanobot, get_status and get_status_internal. -/
def acquireManagedLock {α : Type} (poisoned : Bool) (v : α) : LockOutcome α :=
  lockUnwrapGuard (rustMutexLock poisoned v)

/-! ## Synthetic start instant (process.rs, get_status lines 674-683 and
get_status_internal lines 1657-1664)

The code computes elapsed_secs = now - timestamp on i64 epoch seconds,
casts it with as u64 (a wrapping cast, modelled as reduction modulo
2 ^ 64 of the mathematical integer), and evaluates
Instant::now() - Duration::from_secs(elapsed_secs as u64), which aborts
when the duration exceeds the monotone clock value.  The monotone clock
is modelled in whole seconds as a natural number. -/

/-- Model of (now - timestamp) as u64: the integer difference reduced
modulo 2 ^ 64 into the range of u64. -/
def elapsed_secs_u64 (now ts : ℤ) : ℕ :=
  ((now - ts) % (2 : ℤ) ^ 64).toNat

/-- Model of Instant - Duration on whole seconds: none models the abort
on underflow. -/
def instant_sub_secs (instNow d : ℕ) : Option ℕ :=
  if d ≤ instNow then some (instNow - d) else none

/-- Model of the synthetic start instant set_start_time receives:
Instant::now() minus the cast elapsed seconds. -/
def synthetic_start_instant (instNow : ℕ) (now ts : ℤ) : Option ℕ :=
  instant_sub_secs instNow (elapsed_secs_u64 now ts)

/-! ## Range chains: the shape of the ranges a trace emits -/

/-- RangeChain a rs b states that rs is a list of adjacent nonempty
half-open ranges starting at a and ending at b. -/
inductive RangeChain : ℕ → List (ℕ × ℕ) → ℕ → Prop where
  | nil (a : ℕ) : RangeChain a [] a
  | cons {a b c : ℕ} {rs : List (ℕ × ℕ)} :
      a < b → RangeChain b rs c → RangeChain a ((a, b) :: rs) c


/-! ## Helper lemmas -/

/-- After invalidate_cache, the next get_cached_nanobot_status always
performs a fresh scan and stores it with the current timestamp. -/
theorem get_after_invalidate (oc : Option ProcessCheckCache) (now : ℕ)
    (ps : List ProcEntry) :
    get_cached_nanobot_status (invalidate_cache oc) now ps =
      (check_nanobot_running_impl ps,
       some ⟨some (check_nanobot_running_impl ps), some now⟩, true) := by
  cases oc <;> rfl

/-- When the file did not shrink, read_new_lines emits the range from the
cursor to the end of file, or nothing when there is no growth. -/
theorem read_new_lines_no_trunc {size pos : ℕ} (h : pos ≤ size) :
    read_new_lines size pos =
      if size = pos then (none, pos) else (some (pos, size), size) := by
  unfold read_new_lines
  have hn : ¬ size < pos := not_lt.mpr h
  simp [hn]

/-- A range chain runs from a smaller to a larger endpoint. -/
theorem RangeChain.le_end {a b : ℕ} {rs : List (ℕ × ℕ)}
    (h : RangeChain a rs b) : a ≤ b := by
  induction h with
  | nil => exact le_refl _
  | cons hab _ ih => omega

/-- Every range of a chain lies inside the chain endpoints. -/
theorem RangeChain.bounds {a b : ℕ} {rs : List (ℕ × ℕ)}
    (h : RangeChain a rs b) : ∀ r ∈ rs, a ≤ r.1 ∧ r.2 ≤ b := by
  induction h with
  | nil => intro r hr; cases hr
  | cons hab htail ih =>
    intro r hr
    rcases List.mem_cons.mp hr with hr | hr
    · subst hr
      exact ⟨le_refl _, htail.le_end⟩
    · have := ih r hr
      omega

/-- A point is covered by some range of a chain exactly when it lies
between the chain endpoints. -/
theorem RangeChain.mem_iff {a b : ℕ} {rs : List (ℕ × ℕ)}
    (h : RangeChain a rs b) :
    ∀ x, (∃ r, r ∈ rs ∧ r.1 ≤ x ∧ x < r.2) ↔ (a ≤ x ∧ x < b) := by
  induction h with
  | nil =>
    intro x
    constructor
    · rintro ⟨r, hr, _⟩; cases hr
    · intro hx; omega
  | @cons a b c rs hab htail ih =>
    intro x
    have hbc := htail.le_end
    constructor
    · rintro ⟨r, hr, hx1, hx2⟩
      rcases List.mem_cons.mp hr with hr | hr
      · subst hr; exact ⟨hx1, by omega⟩
      · have := (ih x).mp ⟨r, hr, hx1, hx2⟩
        omega
    · rintro ⟨hx1, hx2⟩
      by_cases hxb : x < b
      · exact ⟨(a, b), List.mem_cons_self _ _, hx1, hxb⟩
      · obtain ⟨r, hr, hrx⟩ := (ih x).mpr ⟨by omega, hx2⟩
        exact ⟨r, List.mem_cons_of_mem _ hr, hrx⟩

/-- The ranges of a chain are ordered: each ends no later than any later
one begins. -/
theorem RangeChain.pairwise_le {a b : ℕ} {rs : List (ℕ × ℕ)}
    (h : RangeChain a rs b) : rs.Pairwise (fun r s => r.2 ≤ s.1) := by
  induction h with
  | nil => exact List.Pairwise.nil
  | cons hab htail ih =>
    refine List.Pairwise.cons ?_ ih
    intro r hr
    exact (htail.bounds r hr).1

/-- Replaying a trace whose observed sizes never decrease (each at least
the starting cursor, each at least its predecessor) yields a chain of
adjacent ranges from the starting cursor to the final cursor. -/
theorem stream_trace_chain :
    ∀ (sizes : List ℕ) (pos : ℕ), List.Chain (· ≤ ·) pos sizes →
      RangeChain pos (stream_trace sizes pos).1 (stream_trace sizes pos).2 := by
  intro sizes
  induction sizes with
  | nil => intro pos _; exact RangeChain.nil pos
  | cons s rest ih =>
    intro pos h
    rw [List.chain_cons] at h
    obtain ⟨hps, hrest⟩ := h
    by_cases he : s = pos
    · subst he
      have hstep : read_new_lines s s = (none, s) := by
        rw [read_new_lines_no_trunc (le_refl s), if_pos rfl]
      simp only [stream_trace, hstep]
      exact ih s hrest
    · have hlt : pos < s := lt_of_le_of_ne hps (fun e => he e.symm)
      have hstep : read_new_lines s pos = (some (pos, s), s) := by
        rw [read_new_lines_no_trunc (le_of_lt hlt), if_neg (by omega)]
      simp only [stream_trace, hstep]
      exact RangeChain.cons hlt (ih s hrest)

/-! ## Claim theorems -/

/-- C1: get_status returns the cached boolean only when the last OS scan
is less than 2 seconds old and was not invalidated (both cache fields
present); otherwise it performs a fresh process-table scan that reports
running exactly when some process has a name containing "python" or
"nanobot" and a command line containing both "nanobot" and "gateway",
stores the result with a fresh timestamp, and returns it; and after any
sequence of invalidate calls the next get always performs a fresh scan
(invalidate is idempotent and get on an invalidated cache scans). -/
theorem claim_C1_cache_get :
    ∀ (oc : Option ProcessCheckCache) (now : ℕ) (ps : List ProcEntry),
      (∀ r oc2, get_cached_nanobot_status oc now ps = (r, oc2, false) →
         ∃ c lu, oc = some c ∧ c.last_update = some lu ∧ now - lu < 2 ∧
           c.is_running = some r ∧ oc2 = some c) ∧
      (∀ r oc2, get_cached_nanobot_status oc now ps = (r, oc2, true) →
         r = check_nanobot_running_impl ps ∧
         oc2 = some ⟨some (check_nanobot_running_impl ps), some now⟩) ∧
      (check_nanobot_running_impl ps = true ↔
         ∃ p, p ∈ ps ∧
           (strContains p.name "python" = true ∨ strContains p.name "nanobot" = true) ∧
           strContains (cmdline p) "nanobot" = true ∧
           strContains (cmdline p) "gateway" = true) ∧
      get_cached_nanobot_status (invalidate_cache oc) now ps =
        (check_nanobot_running_impl ps,
         some ⟨some (check_nanobot_running_impl ps), some now⟩, true) ∧
      invalidate_cache (invalidate_cache oc) = invalidate_cache oc := by
  intro oc now ps
  refine ⟨?_, ?_, ?_, get_after_invalidate oc now ps, ?_⟩
  · intro r oc2 h
    cases oc with
    | none =>
      exfalso
      simp [get_cached_nanobot_status, ProcessCheckCache.new,
        ProcessCheckCache.get] at h
    | some c =>
      obtain ⟨ir, lu⟩ := c
      cases lu with
      | none =>
        exfalso
        simp [get_cached_nanobot_status, ProcessCheckCache.get] at h
      | some lu =>
        by_cases hf : now - lu < 2
        · cases ir with
          | none =>
            exfalso
            simp [get_cached_nanobot_status, ProcessCheckCache.get, hf] at h
          | some r0 =>
            have hg : get_cached_nanobot_status
                (some ⟨some r0, some lu⟩) now ps =
                (r0, some ⟨some r0, some lu⟩, false) := by
              simp [get_cached_nanobot_status, ProcessCheckCache.get, hf]
            rw [hg] at h
            simp only [Prod.mk.injEq] at h
            obtain ⟨h1, h2, -⟩ := h
            exact ⟨⟨some r0, some lu⟩, lu, rfl, rfl, hf, by rw [h1], h2.symm⟩
        · exfalso
          simp [get_cached_nanobot_status, ProcessCheckCache.get, hf] at h
  · intro r oc2 h
    cases oc with
    | none =>
      have hg : get_cached_nanobot_status none now ps =
          (check_nanobot_running_impl ps,
           some ⟨some (check_nanobot_running_impl ps), some now⟩, true) := rfl
      rw [hg] at h
      simp only [Prod.mk.injEq] at h
      exact ⟨h.1.symm, h.2.1.symm⟩
    | some c =>
      obtain ⟨ir, lu⟩ := c
      cases lu with
      | none =>
        have hg : get_cached_nanobot_status (some ⟨ir, none⟩) now ps =
            (check_nanobot_running_impl ps,
             some ⟨some (check_nanobot_running_impl ps), some now⟩, true) := rfl
        rw [hg] at h
        simp only [Prod.mk.injEq] at h
        exact ⟨h.1.symm, h.2.1.symm⟩
      | some lu =>
        by_cases hf : now - lu < 2
        · cases ir with
          | none =>
            have hg : get_cached_nanobot_status (some ⟨none, some lu⟩) now ps =
                (check_nanobot_running_impl ps,
                 some ⟨some (check_nanobot_running_impl ps), some now⟩, true) := by
              simp [get_cached_nanobot_status, ProcessCheckCache.get, hf]
            rw [hg] at h
            simp only [Prod.mk.injEq] at h
            exact ⟨h.1.symm, h.2.1.symm⟩
          | some r0 =>
            exfalso
            simp [get_cached_nanobot_status, ProcessCheckCache.get, hf] at h
        · have hg : get_cached_nanobot_status (some ⟨ir, some lu⟩) now ps =
              (check_nanobot_running_impl ps,
               some ⟨some (check_nanobot_running_impl ps), some now⟩, true) := by
            simp [get_cached_nanobot_status, ProcessCheckCache.get, hf]
          rw [hg] at h
          simp only [Prod.mk.injEq] at h
          exact ⟨h.1.symm, h.2.1.symm⟩
  · simp only [check_nanobot_running_impl, List.any_eq_true, procMatches,
      Bool.and_eq_true, Bool.or_eq_true]
  · cases oc <;> rfl

/-- C1 witness: a cache entry scanned one second ago with a cached true
is returned from the cache without a fresh scan. -/
theorem claim_C1_cache_get_witness :
    ∃ c lu, (some (⟨some true, some 10⟩ : ProcessCheckCache)) = some c ∧
      c.last_update = some lu ∧ 11 - lu < 2 ∧ c.is_running = some true ∧
      (some (⟨some true, some 10⟩ : ProcessCheckCache)) = some c :=
  (claim_C1_cache_get (some ⟨some true, some 10⟩) 11 []).1 true
    (some ⟨some true, some 10⟩) rfl

/-- C2: a start_nanobot call made while the fresh post-invalidation scan
finds the worker running returns status already_running, performs no
command resolution, no self test, no log-file open and no spawn, and
leaves the managed-process record unchanged. -/
theorem claim_C2_start_idem :
    ∀ (oc : Option ProcessCheckCache) (t0 : ℕ) (env : StartEnv)
      (portArg : Option ℕ) (mp : Option ProcessManager),
      check_nanobot_running_impl env.ps0 = true →
      start_nanobot oc t0 env portArg mp =
        (.ok ⟨"already_running", "Nanobot已经在运行中"⟩, noStartEffects,
         some ⟨some true, some t0⟩, mp) := by
  intro oc t0 env portArg mp h
  simp only [start_nanobot, get_after_invalidate, h, if_true]

/-- C2 witness: with a matching nanobot gateway process in the table,
start_nanobot short-circuits to already_running. -/
theorem claim_C2_start_idem_witness :
    start_nanobot none 0
      ⟨[⟨"nanobot", ["nanobot", "gateway"]⟩], true, none, none,
       .ok ⟨true, ""⟩, none, none, none, .stillRunning, 0, [], 0, [], ""⟩
      none none =
      (.ok ⟨"already_running", "Nanobot已经在运行中"⟩, noStartEffects,
       some ⟨some true, some 0⟩, none) :=
  claim_C2_start_idem none 0 _ none none (by decide)

/-- C3 counterexample: with the status check observing a matching process
but the kill-loop snapshot observing none, stop_nanobot returns not_found
and leaves the managed-process running flag at true, so the claim that
the running branch sets the flag to false fails at this input. -/
theorem claim_C3_stop_counterexample :
    stop_nanobot none 0 [⟨"nanobot", ["nanobot", "gateway"]⟩] []
        (some ⟨true, 18790⟩) =
      (⟨"not_found", "未找到运行中的Nanobot进程"⟩, some ⟨true, 18790⟩,
       some ⟨some true, some 0⟩) ∧
    (stop_nanobot none 0 [⟨"nanobot", ["nanobot", "gateway"]⟩] []
        (some ⟨true, 18790⟩)).2.1 ≠ some ⟨false, 18790⟩ := by
  constructor
  · rfl
  · decide

/-- C3 amended: stop_nanobot called while the fresh post-invalidation
check finds the worker not running returns not_running without error and
without touching the record; when running it signals the fingerprint
matches of its own snapshot and returns stopped with the managed running
flag set to false exactly when at least one process was signaled, and
not_found with the record unchanged otherwise. -/
theorem claim_C3_stop_amended :
    ∀ (oc : Option ProcessCheckCache) (t : ℕ)
      (psCheck psKill : List ProcEntry) (mp : Option ProcessManager),
      (check_nanobot_running_impl psCheck = false →
        stop_nanobot oc t psCheck psKill mp =
          (⟨"not_running", "Nanobot未运行"⟩, mp,
           some ⟨some false, some t⟩)) ∧
      (check_nanobot_running_impl psCheck = true →
        psKill.any procMatches = true →
        stop_nanobot oc t psCheck psKill mp =
          (⟨"stopped", "Nanobot已停止"⟩,
           mp.map (fun m => { m with is_running := false }),
           some ⟨some true, some t⟩)) ∧
      (check_nanobot_running_impl psCheck = true →
        psKill.any procMatches = false →
        stop_nanobot oc t psCheck psKill mp =
          (⟨"not_found", "未找到运行中的Nanobot进程"⟩, mp,
           some ⟨some true, some t⟩)) := by
  intro oc t psCheck psKill mp
  refine ⟨?_, ?_, ?_⟩
  · intro h
    simp only [stop_nanobot, get_after_invalidate, h]
    simp
  · intro h hk
    simp only [stop_nanobot, get_after_invalidate, h, hk]
    simp
  · intro h hk
    simp only [stop_nanobot, get_after_invalidate, h, hk]
    simp

/-- C3 witness: when both snapshots contain the matching process, stop
reports stopped and clears the managed running flag. -/
theorem claim_C3_stop_witness :
    stop_nanobot none 0 [⟨"nanobot", ["nanobot", "gateway"]⟩]
        [⟨"nanobot", ["nanobot", "gateway"]⟩] (some ⟨true, 18790⟩) =
      (⟨"stopped", "Nanobot已停止"⟩, some ⟨false, 18790⟩,
       some ⟨some true, some 0⟩) := by
  have h := (claim_C3_stop_amended none 0 [⟨"nanobot", ["nanobot", "gateway"]⟩]
    [⟨"nanobot", ["nanobot", "gateway"]⟩] (some ⟨true, 18790⟩)).2.1
    (by decide) (by decide)
  simpa using h

/-- C4 counterexample: with the cursor initialized to file length 5 and a
single read at length 10 the emitted ranges do not cover byte 0, so they
are not a partition of the interval from 0 to the final offset; and with
a truncation from length 5 to length 3 the two emitted ranges overlap, so
disjointness also fails for an arbitrary interleaving. -/
theorem claim_C4_partition_counterexample :
    (¬ ∀ x, (∃ r, r ∈ (stream_trace [10] 5).1 ∧ r.1 ≤ x ∧ x < r.2) ↔
        (0 ≤ x ∧ x < (stream_trace [10] 5).2)) ∧
    ¬ (stream_trace [5, 3] 0).1.Pairwise
        (fun r s => r.2 ≤ s.1 ∨ s.2 ≤ r.1) := by
  constructor
  · intro h
    exact absurd ((h 0).mpr (by decide)) (by decide)
  · have he : (stream_trace [5, 3] 0).1 = [(0, 5), (0, 3)] := rfl
    rw [he]
    intro h
    rw [List.pairwise_cons] at h
    have := h.1 (0, 3) (by simp)
    omega

/-- C4 amended: for every serialized interleaving of event-path and
poll-path reads in which the observed file length never decreases, the
emitted byte ranges are pairwise disjoint and form a partition of the
interval from the initial cursor (the file length at stream start) to the
final offset. -/
theorem claim_C4_partition_amended :
    ∀ (pos : ℕ) (sizes : List ℕ), List.Chain (· ≤ ·) pos sizes →
      (∀ x, (∃ r, r ∈ (stream_trace sizes pos).1 ∧ r.1 ≤ x ∧ x < r.2) ↔
         (pos ≤ x ∧ x < (stream_trace sizes pos).2)) ∧
      (stream_trace sizes pos).1.Pairwise
        (fun r s => r.2 ≤ s.1 ∨ s.2 ≤ r.1) := by
  intro pos sizes h
  have hc := stream_trace_chain sizes pos h
  exact ⟨hc.mem_iff, hc.pairwise_le.imp Or.inl⟩

/-- C4 witness: a two-read trace from an initially empty file partitions
the interval from 0 to the final offset with disjoint ranges. -/
theorem claim_C4_partition_witness :
    (∀ x, (∃ r, r ∈ (stream_trace [2, 5] 0).1 ∧ r.1 ≤ x ∧ x < r.2) ↔
       (0 ≤ x ∧ x < (stream_trace [2, 5] 0).2)) ∧
    (stream_trace [2, 5] 0).1.Pairwise (fun r s => r.2 ≤ s.1 ∨ s.2 ≤ r.1) :=
  claim_C4_partition_amended 0 [2, 5]
    (List.Chain.cons (by omega) (List.Chain.cons (by omega) List.Chain.nil))

/-- C5: every read_new_lines call leaves the stored offset equal to the
file length observed at that read (so the offset never exceeds it), and
when the observed length is smaller than the stored offset the offset is
reset before reading, so any range emitted by that read starts at 0. -/
theorem claim_C5_rotation :
    ∀ (size pos : ℕ),
      (read_new_lines size pos).2 = size ∧
      (size < pos → ∀ a b, (read_new_lines size pos).1 = some (a, b) →
        a = 0 ∧ b = size) := by
  intro size pos
  constructor
  · unfold read_new_lines
    by_cases hlt : size < pos
    · simp only [hlt, if_true]
      by_cases h0 : size = 0
      · simp [h0]
      · simp [h0]
    · simp only [hlt, if_false]
      by_cases h0 : size = pos
      · simp [h0]
      · simp [h0]
  · intro hlt a b h
    unfold read_new_lines at h
    simp only [hlt, if_true] at h
    by_cases h0 : size = 0
    · simp [h0] at h
    · simp [h0] at h
      exact ⟨h.1.symm, h.2.symm⟩

/-- C5 witness: a read observing length 3 with stored offset 5 resets and
emits the range from 0 to 3, leaving the offset at 3. -/
theorem claim_C5_rotation_witness :
    (read_new_lines 3 5).2 = 3 ∧
    (∀ a b, (read_new_lines 3 5).1 = some (a, b) → a = 0 ∧ b = 3) :=
  ⟨(claim_C5_rotation 3 5).1,
   fun a b h => (claim_C5_rotation 3 5).2 (by decide) a b h⟩

/-- C6: when status reconstruction obtains a process start timestamp ts
not later than the current epoch time now, with the elapsed seconds
representable and not exceeding the monotone clock (a detected process
cannot be older than the running system), the synthetic start instant
satisfies instNow minus synthetic equal to now minus ts exactly, hence
within one second of the true difference. -/
theorem claim_C6_uptime :
    ∀ (instNow : ℕ) (now ts : ℤ),
      ts ≤ now → now - ts < (2 : ℤ) ^ 64 → (now - ts).toNat ≤ instNow →
      synthetic_start_instant instNow now ts =
        some (instNow - (now - ts).toNat) ∧
      ((instNow : ℤ) - ((instNow - (now - ts).toNat : ℕ) : ℤ) = now - ts) := by
  intro instNow now ts h1 h2 h3
  have h0 : (0 : ℤ) ≤ now - ts := by omega
  have e1 : elapsed_secs_u64 now ts = (now - ts).toNat := by
    unfold elapsed_secs_u64
    rw [Int.emod_eq_of_lt h0 h2]
  constructor
  · unfold synthetic_start_instant instant_sub_secs
    rw [e1, if_pos h3]
  · omega

/-- C6 witness: a process started at epoch 90 observed at epoch 100 with
monotone clock 50 gets synthetic start 40, so the reconstructed uptime is
exactly 10 seconds. -/
theorem claim_C6_uptime_witness :
    synthetic_start_instant 50 100 90 = some ((50 : ℕ) - ((100 : ℤ) - 90).toNat) ∧
    ((50 : ℤ) - (((50 : ℕ) - ((100 : ℤ) - 90).toNat : ℕ) : ℤ) = (100 : ℤ) - 90) :=
  claim_C6_uptime 50 100 90 (by decide) (by decide) (by decide)

/-- C7 counterexample: acquiring the nanobot_process lock when it is
poisoned aborts the caller, so the claim that poisoning is recovered and
never propagated as a panic for both singletons fails on the
ManagedProcess record. -/
theorem claim_C7_lock_counterexample :
    acquireManagedLock true (0 : ℕ) = LockOutcome.panicked ∧
    LockOutcome.panicked ≠ LockOutcome.acquired (0 : ℕ) := by
  exact ⟨rfl, by decide⟩

/-- C7 amended: only the ProcessStatusCache lock recovers a poisoned
state by taking the inner value and continuing; the nanobot_process lock
is taken with unwrap and therefore propagates a panic when poisoned,
while succeeding when not poisoned. -/
theorem claim_C7_lock_amended :
    ∀ (α : Type) (poisoned : Bool) (v : α),
      acquireCacheLock poisoned v = LockOutcome.acquired v ∧
      acquireManagedLock false v = LockOutcome.acquired v ∧
      acquireManagedLock true v = LockOutcome.panicked := by
  intro α poisoned v
  cases poisoned <;> exact ⟨rfl, rfl, rfl⟩

/-- C8 counterexample: the failure message of the unresolved-command
branch is the Chinese sentence of the source and does not contain the
substring "not found", so the claim as literally stated fails at this
input even though the branch behaves as described otherwise. -/
theorem claim_C8_notfound_counterexample :
    start_nanobot none 0
      ⟨[], true, none, none, .ok ⟨true, ""⟩, none, none, none,
       .stillRunning, 0, [], 0, [], ""⟩ none none =
      (.ok ⟨"failed", "未找到 nanobot 命令，请先安装 nanobot-ai"⟩,
       { resolvedCmd := true, ranSelfTest := false, openedLog := false,
         spawned := false },
       some ⟨some false, some 0⟩, none) ∧
    strContains "未找到 nanobot 命令，请先安装 nanobot-ai" "not found" = false := by
  exact ⟨rfl, by decide⟩

/-- C8 amended: when the worker is not running, the home directory and
log directory succeed, and find_command returns none, start_nanobot
returns status failed with the message 未找到 nanobot 命令，请先安装
nanobot-ai (containing 未找到, the Chinese for not found), having resolved
the command but neither run the self test, nor opened the log file, nor
spawned a process. -/
theorem claim_C8_notfound_amended :
    ∀ (oc : Option ProcessCheckCache) (t0 : ℕ) (env : StartEnv)
      (portArg : Option ℕ) (mp : Option ProcessManager),
      check_nanobot_running_impl env.ps0 = false →
      env.homeOk = true → env.mkdirErr = none → env.findCmd = none →
      start_nanobot oc t0 env portArg mp =
        (.ok ⟨"failed", "未找到 nanobot 命令，请先安装 nanobot-ai"⟩,
         { resolvedCmd := true, ranSelfTest := false, openedLog := false,
           spawned := false },
         some ⟨some false, some t0⟩, mp) ∧
      strContains "未找到 nanobot 命令，请先安装 nanobot-ai" "未找到" = true := by
  intro oc t0 env portArg mp h hh hm hf
  refine ⟨?_, by decide⟩
  simp only [start_nanobot, get_after_invalidate, h, hh, hm, hf]
  simp

/-- C8 witness: with an empty process table and an unresolved command the
amended branch behavior holds at a concrete input. -/
theorem claim_C8_notfound_witness :
    start_nanobot none 0
      ⟨[], true, none, none, .ok ⟨true, ""⟩, none, none, none,
       .stillRunning, 0, [], 0, [], ""⟩ none none =
      (.ok ⟨"failed", "未找到 nanobot 命令，请先安装 nanobot-ai"⟩,
       { resolvedCmd := true, ranSelfTest := false, openedLog := false,
         spawned := false },
       some ⟨some false, some 0⟩, none) :=
  (claim_C8_notfound_amended none 0
    ⟨[], true, none, none, .ok ⟨true, ""⟩, none, none, none,
     .stillRunning, 0, [], 0, [], ""⟩ none none rfl rfl rfl rfl).1

/-- C9 counterexample: stop_log_stream called while the stream is stopped
returns an error value, not success, so the claimed idempotent success of
a duplicate stop fails. -/
theorem claim_C9_stream_counterexample :
    stop_log_stream false = (.error "没有正在运行的日志监控", false) ∧
    (Except.error "没有正在运行的日志监控" : Except String Unit) ≠ .ok () := by
  refine ⟨rfl, ?_⟩
  intro h
  exact Except.noConfusion h

/-- C9 amended: start_log_stream while already running is a no-op that
returns success without spawning a second background task, stop while
running succeeds and clears the flag, and stop while already stopped
returns an error (没有正在运行的日志监控) rather than success. -/
theorem claim_C9_stream_amended :
    ∀ (env : LogStreamEnv),
      start_log_stream true env = (.ok (), true, false, none) ∧
      stop_log_stream true = (.ok (), false) ∧
      stop_log_stream false = (.error "没有正在运行的日志监控", false) := by
  intro env
  exact ⟨rfl, rfl, rfl⟩

/-- C10: with a start timestamp at most the current epoch time and a
process no older than the monotone clock the synthetic start computation
completes with a value; with a timestamp in the future the as-u64 cast
wraps to 2 to the 64 minus the skew and the instant subtraction
underflows, modelled as none. -/
theorem claim_C10_cast_totality :
    ∀ (instNow : ℕ) (now ts : ℤ),
      (ts ≤ now → now - ts < (2 : ℤ) ^ 64 → (now - ts).toNat ≤ instNow →
        synthetic_start_instant instNow now ts =
          some (instNow - (now - ts).toNat)) ∧
      (now < ts → ts - now < (2 : ℤ) ^ 64 →
        (instNow : ℤ) < (2 : ℤ) ^ 64 - (ts - now) →
        elapsed_secs_u64 now ts = ((2 : ℤ) ^ 64 - (ts - now)).toNat ∧
        synthetic_start_instant instNow now ts = none) := by
  intro instNow now ts
  constructor
  · intro h1 h2 h3
    have h0 : (0 : ℤ) ≤ now - ts := by omega
    have e1 : elapsed_secs_u64 now ts = (now - ts).toNat := by
      unfold elapsed_secs_u64
      rw [Int.emod_eq_of_lt h0 h2]
    unfold synthetic_start_instant instant_sub_secs
    rw [e1, if_pos h3]
  · intro hf hb hi
    have e : (now - ts) % (2 : ℤ) ^ 64 = (2 : ℤ) ^ 64 + (now - ts) := by
      have h1 : ((now - ts) + (2 : ℤ) ^ 64 * 1) % (2 : ℤ) ^ 64 =
          (now - ts) % (2 : ℤ) ^ 64 :=
        Int.add_mul_emod_self_left (now - ts) ((2 : ℤ) ^ 64) 1
      rw [← h1, mul_one]
      rw [Int.emod_eq_of_lt (by omega) (by omega)]
      omega
    have e1 : elapsed_secs_u64 now ts = ((2 : ℤ) ^ 64 - (ts - now)).toNat := by
      unfold elapsed_secs_u64
      rw [e]
      omega
    refine ⟨e1, ?_⟩
    unfold synthetic_start_instant instant_sub_secs
    rw [e1, if_neg (by omega)]

/-- C10 witness: a past timestamp yields a value; a timestamp one second
in the future wraps the cast to 2 to the 64 minus 1 seconds and the
subtraction from a monotone clock at 0 underflows. -/
theorem claim_C10_cast_totality_witness :
    synthetic_start_instant 40 100 90 = some ((40 : ℕ) - ((100 : ℤ) - 90).toNat) ∧
    (elapsed_secs_u64 0 1 = ((2 : ℤ) ^ 64 - ((1 : ℤ) - 0)).toNat ∧
     synthetic_start_instant 0 0 1 = none) :=
  ⟨(claim_C10_cast_totality 40 100 90).1 (by decide) (by decide) (by decide),
   (claim_C10_cast_totality 0 0 1).2 (by decide) (by decide) (by decide)⟩
